import Mathlib

/-!
Verification of the `modbus_client` package (a small Modbus TCP client).

The development shallowly embeds the two layers of the code:

* the pure encoding helpers `ModbusClient._to_signed` / `ModbusClient._to_unsigned`
  from `modbus_client/client.py`, embedded over `ℤ` (Python integers are
  unbounded; Python's bitwise `&` on integers is the infinite two's-complement
  bitwise AND, i.e. `Int.land`);
* the effectful read/write methods of `ModbusClient` and the CLI handlers
  `handle_read` / `handle_write` from `modbus_client/cli.py`.  Network effects
  are embedded as an explicit trace of transport calls: each method is a pure
  function from the device/transport behaviour (does the TCP connect succeed,
  and what does each request/response exchange return) to a trace of transport
  interactions plus a result (`Except` models Python exceptions).
-/

namespace Modbus

/-! ### Encoding module (`client.py`, `_to_signed` / `_to_unsigned`) -/

/-- Embeds `ModbusClient._to_signed` (client.py line 51):
`return value if value < 32768 else value - 65536`. -/
def to_signed (value : ℤ) : ℤ :=
  if value < 32768 then value else value - 65536

/-- Embeds `ModbusClient._to_unsigned` (client.py line 56):
`return value & 0xFFFF`.  Python's `&` on unbounded integers is the
infinite two's-complement bitwise AND, which is `Int.land`. -/
def to_unsigned (value : ℤ) : ℤ :=
  Int.land value 65535

/-- Spec reference definition of `toSigned` (§4.1):
"raw < 32768 → raw; else raw − 65536". -/
def spec_toSigned (raw : ℤ) : ℤ :=
  if raw < 32768 then raw else raw - 65536

/-- Spec reference definition of `toUnsigned` (§4.1): "`value & 0xFFFF`
(two's-complement truncation)", i.e. truncation of the integer to its low
16 bits, the nonnegative remainder mod `2 ^ 16`. -/
def spec_toUnsigned (value : ℤ) : ℤ :=
  value % 65536

/-! ### Effect model for `ModbusClient` (client.py)

Each read/write method of `ModbusClient` is embedded as a pure function from
the transport behaviour to an `Effect`: the list of transport interactions the
method performs, plus its result.  An exception raised by the Python code is
an `Except.error`. -/

/-- Transport-level interactions of a `ModbusClient` method, in order.
`connectOk`/`connectFail` model `ModbusTcpClient(...).connect()` succeeding or
failing inside `_connect`; the middle constructors model the pymodbus
request/response primitives; `close` models `client.close()`. -/
inductive TCall where
  | connectOk : TCall
  | connectFail : TCall
  | readHolding (address count : ℤ) : TCall
  | readInput (address count : ℤ) : TCall
  | readCoils (address count : ℤ) : TCall
  | readDiscrete (address count : ℤ) : TCall
  | writeRegister (address raw : ℤ) : TCall
  | writeRegistersCall (address : ℤ) (raws : List ℤ) : TCall
  | writeCoilCall (address : ℤ) (value : Bool) : TCall
  | writeCoilsCall (address : ℤ) (values : List Bool) : TCall
  | close : TCall
  deriving DecidableEq

/-- Behaviour of one pymodbus request/response exchange, as seen by the
client code: a normal response carrying `α` (`result` with
`result.isError()` false), an error response (`result.isError()` true), or a
raised `ModbusException`. -/
inductive Outcome (α : Type) where
  | ok (response : α) : Outcome α
  | deviceError : Outcome α
  | modbusExc : Outcome α
  deriving DecidableEq

/-- Exceptions a `ModbusClient` method can raise.  `connectionError` is
`ModbusConnectionError`, `responseError` is `ModbusResponseError` (also used
when a `ModbusException` is re-raised as `ModbusResponseError`),
`valueError i v` is the `ValueError` for out-of-range value `v` (at index `i`
for the batch method), `emptyValuesError` the `ValueError` for an empty
values list. -/
inductive ClientError where
  | connectionError : ClientError
  | responseError : ClientError
  | valueError (index : Option ℕ) (value : ℤ) : ClientError
  | emptyValuesError : ClientError
  deriving DecidableEq

/-- Result of running one `ModbusClient` method against a given transport
behaviour: the transport interactions performed, and the returned value or
raised exception. -/
structure Effect (α : Type) where
  trace : List TCall
  result : Except ClientError α

/-- Embeds the shared `client = self._connect(); try: <body> finally:
client.close()` shape of every method.  If the TCP connect fails, `_connect`
raises `ModbusConnectionError` before the `try` block, so no `close` happens;
otherwise the `finally` clause closes the connection on every exit path of
the body. -/
def with_connection (connectOk : Bool) (body : List TCall × Except ClientError α) :
    Effect α :=
  if connectOk then
    { trace := TCall.connectOk :: body.1 ++ [TCall.close], result := body.2 }
  else
    { trace := [TCall.connectFail], result := .error .connectionError }

/-- Embeds the `result.isError()` check plus the `except ModbusException`
re-raise shared by every method body: a normal response is decoded, both
error shapes surface as `ModbusResponseError`. -/
def decode_response (out : Outcome α) (decode : α → β) : Except ClientError β :=
  match out with
  | .ok r => .ok (decode r)
  | .deviceError => .error .responseError
  | .modbusExc => .error .responseError

/-- Embeds `ModbusClient.read_holding_registers` (client.py lines 62-93).
The decoded result applies `_to_signed` to each raw register iff `signed`. -/
def read_holding_registers (address count : ℤ) (signed : Bool)
    (connectOk : Bool) (out : Outcome (List ℤ)) : Effect (List ℤ) :=
  with_connection connectOk
    ([TCall.readHolding address count],
     decode_response out fun regs => if signed then regs.map to_signed else regs)

/-- Embeds `ModbusClient.read_input_registers` (client.py lines 95-122). -/
def read_input_registers (address count : ℤ) (signed : Bool)
    (connectOk : Bool) (out : Outcome (List ℤ)) : Effect (List ℤ) :=
  with_connection connectOk
    ([TCall.readInput address count],
     decode_response out fun regs => if signed then regs.map to_signed else regs)

/-- Embeds `ModbusClient.read_coils` (client.py lines 124-137); the returned
booleans are `list(result.bits[:count])`, the transport's bits truncated to
`count` (`count` is nonnegative in every CLI/spec use, where Python's
slice `[:count]` is `List.take`). -/
def read_coils (address count : ℤ)
    (connectOk : Bool) (out : Outcome (List Bool)) : Effect (List Bool) :=
  with_connection connectOk
    ([TCall.readCoils address count],
     decode_response out fun bits => bits.take count.toNat)

/-- Embeds `ModbusClient.read_discrete_inputs` (client.py lines 139-152). -/
def read_discrete_inputs (address count : ℤ)
    (connectOk : Bool) (out : Outcome (List Bool)) : Effect (List Bool) :=
  with_connection connectOk
    ([TCall.readDiscrete address count],
     decode_response out fun bits => bits.take count.toNat)

/-- Embeds `ModbusClient.write_holding_register` (client.py lines 158-187):
range-check `value` for the chosen encoding (raising `ValueError` before any
connection when out of range), encode it (`_to_unsigned` in signed mode, the
raw value in unsigned mode), then perform one `write_register` exchange. -/
def write_holding_register (address value : ℤ) (signed : Bool)
    (connectOk : Bool) (out : Outcome Unit) : Effect Unit :=
  match (if signed then
           if -32768 ≤ value ∧ value ≤ 32767 then Except.ok (to_unsigned value)
           else Except.error (ClientError.valueError none value)
         else
           if 0 ≤ value ∧ value ≤ 65535 then Except.ok value
           else Except.error (ClientError.valueError none value) :
         Except ClientError ℤ) with
  | .error e => { trace := [], result := .error e }
  | .ok raw =>
    with_connection connectOk
      ([TCall.writeRegister address raw], decode_response out fun _ => ())

/-- Embeds the `raw_values` accumulation loop of
`ModbusClient.write_holding_registers` (client.py lines 201-210): values are
range-checked and encoded left to right, raising `ValueError` that names the
first offending index and value. -/
def build_raw_values (signed : Bool) : ℕ → List ℤ → Except ClientError (List ℤ)
  | _, [] => .ok []
  | i, v :: rest =>
    if signed then
      if -32768 ≤ v ∧ v ≤ 32767 then
        (build_raw_values signed (i + 1) rest).map fun raws => to_unsigned v :: raws
      else .error (.valueError (some i) v)
    else
      if 0 ≤ v ∧ v ≤ 65535 then
        (build_raw_values signed (i + 1) rest).map fun raws => v :: raws
      else .error (.valueError (some i) v)

/-- Embeds `ModbusClient.write_holding_registers` (client.py lines 189-222):
reject an empty list, validate and encode every value, and only then open a
connection and perform one `write_registers` exchange. -/
def write_holding_registers (address : ℤ) (values : List ℤ) (signed : Bool)
    (connectOk : Bool) (out : Outcome Unit) : Effect Unit :=
  if values = [] then { trace := [], result := .error .emptyValuesError }
  else
    match build_raw_values signed 0 values with
    | .error e => { trace := [], result := .error e }
    | .ok raw_values =>
      with_connection connectOk
        ([TCall.writeRegistersCall address raw_values], decode_response out fun _ => ())

/-- Embeds `ModbusClient.write_coil` (client.py lines 224-236). -/
def write_coil (address : ℤ) (value : Bool)
    (connectOk : Bool) (out : Outcome Unit) : Effect Unit :=
  with_connection connectOk
    ([TCall.writeCoilCall address value], decode_response out fun _ => ())

/-- Embeds `ModbusClient.write_coils` (client.py lines 238-252). -/
def write_coils (address : ℤ) (values : List Bool)
    (connectOk : Bool) (out : Outcome Unit) : Effect Unit :=
  if values = [] then { trace := [], result := .error .emptyValuesError }
  else
    with_connection connectOk
      ([TCall.writeCoilsCall address values], decode_response out fun _ => ())

/-! ### CLI model (`cli.py`) -/

/-- Embeds Python's `str.lower()`; for the ASCII register-type names the CLI
compares against, lowering each character is exactly `Char.toLower`. -/
def py_lower (s : String) : String := ⟨s.data.map Char.toLower⟩

/-- Arguments of `modbus read` used by `handle_read` (argparse delivers
`address`/`count` as `int` and `--unsigned` as a boolean flag). -/
structure ReadArgs where
  address : ℤ
  count : ℤ
  register_type : String
  unsigned : Bool

/-- Arguments of `modbus write` used by `handle_write`.  `values` are the
user-supplied tokens as integers: for register writes the result of the
`int(v)` parse (cli.py line 359); for coil writes the tokens are checked
to be `"0"`/`"1"` (embedded as `v = 0 ∨ v = 1`).  Tokens that are not
numerals at all are rejected by the surrounding `try`/`except` before any
transport call and are not modelled. -/
structure WriteArgs where
  address : ℤ
  values : List ℤ
  register_type : String
  unsigned : Bool
  write_mode : String

/-- Exit code the handlers produce around a client call: 0 on success, 1
when the raised error is caught and printed (an uncaught exception likewise
terminates the process unsuccessfully, so every error maps to 1). -/
def exit_of (r : Except ClientError α) : ℕ :=
  match r with
  | .ok _ => 0
  | .error _ => 1

/-- Embeds `handle_read` (cli.py lines 280-340) as exit code plus transport
trace: validate the register type, subtract 1 from the user-supplied address
(cli.py line 288), dispatch to the matching `ModbusClient` read method.
Console formatting is not modelled. -/
def handle_read (args : ReadArgs) (connectOk : Bool)
    (regOut : Outcome (List ℤ)) (bitOut : Outcome (List Bool)) : ℕ × List TCall :=
  let reg_type := py_lower args.register_type
  if reg_type ∉ ["holding", "input", "coil", "discrete"] then (1, [])
  else
    let signed := !args.unsigned
    let address := args.address - 1
    if reg_type = "holding" then
      let eff := read_holding_registers address args.count signed connectOk regOut
      (exit_of eff.result, eff.trace)
    else if reg_type = "input" then
      let eff := read_input_registers address args.count signed connectOk regOut
      (exit_of eff.result, eff.trace)
    else if reg_type = "coil" then
      let eff := read_coils address args.count connectOk bitOut
      (exit_of eff.result, eff.trace)
    else
      let eff := read_discrete_inputs address args.count connectOk bitOut
      (exit_of eff.result, eff.trace)

/-- Embeds the holding-value validation loop of `handle_write` (cli.py lines
360-370): the first out-of-range value and its index, if any. -/
def cli_validate (signed : Bool) : ℕ → List ℤ → Option (ℕ × ℤ)
  | _, [] => none
  | i, v :: rest =>
    if signed then
      if -32768 ≤ v ∧ v ≤ 32767 then cli_validate signed (i + 1) rest
      else some (i, v)
    else
      if 0 ≤ v ∧ v ≤ 65535 then cli_validate signed (i + 1) rest
      else some (i, v)

/-- Embeds the coil-value check of `handle_write` (cli.py lines 371-377):
each token must be `0` or `1` and becomes the boolean `bool(int(v))`. -/
def parse_coil_values : ℕ → List ℤ → Except (ℕ × ℤ) (List Bool)
  | _, [] => .ok []
  | i, v :: rest =>
    if v = 0 ∨ v = 1 then
      (parse_coil_values (i + 1) rest).map fun bs => decide (v = 1) :: bs
    else .error (i, v)

/-- Embeds the one-write-per-value loop of `handle_write` (cli.py lines
421-423): `write_holding_register` at consecutive addresses, aborting at the
first raised error.  Call number `k` sees the `k`-th connect/exchange
behaviour. -/
def write_single_loop (address : ℤ) (signed : Bool)
    (connOk : ℕ → Bool) (outs : ℕ → Outcome Unit) :
    ℕ → List ℤ → List TCall × Except ClientError Unit
  | _, [] => ([], .ok ())
  | i, v :: rest =>
    let eff := write_holding_register (address + (i : ℤ)) v signed (connOk i) (outs i)
    match eff.result with
    | .error e => (eff.trace, .error e)
    | .ok _ =>
      let next := write_single_loop address signed connOk outs (i + 1) rest
      (eff.trace ++ next.1, next.2)

/-- Embeds the one-write-per-coil loop of `handle_write` (cli.py lines
428-430). -/
def coil_single_loop (address : ℤ)
    (connOk : ℕ → Bool) (outs : ℕ → Outcome Unit) :
    ℕ → List Bool → List TCall × Except ClientError Unit
  | _, [] => ([], .ok ())
  | i, v :: rest =>
    let eff := write_coil (address + (i : ℤ)) v (connOk i) (outs i)
    match eff.result with
    | .error e => (eff.trace, .error e)
    | .ok _ =>
      let next := coil_single_loop address connOk outs (i + 1) rest
      (eff.trace ++ next.1, next.2)

/-- Embeds `handle_write` (cli.py lines 343-453) as exit code plus transport
trace: reject read-only and unknown register types, validate values, subtract
1 from the user-supplied address (cli.py line 353), then dispatch on
`--write-mode` to the matching `ModbusClient` write method(s). -/
def handle_write (args : WriteArgs) (connOk : ℕ → Bool) (outs : ℕ → Outcome Unit) :
    ℕ × List TCall :=
  let reg_type := py_lower args.register_type
  if reg_type = "input" ∨ reg_type = "discrete" then (1, [])
  else if ¬(reg_type = "holding" ∨ reg_type = "coil") then (1, [])
  else
    let signed := !args.unsigned
    let address := args.address - 1
    if reg_type = "holding" then
      match cli_validate signed 0 args.values with
      | some _ => (1, [])
      | none =>
        if args.write_mode = "single" then
          if args.values.length = 1 then
            let eff := write_holding_register address args.values.headI signed
              (connOk 0) (outs 0)
            (exit_of eff.result, eff.trace)
          else
            let r := write_single_loop address signed connOk outs 0 args.values
            (exit_of r.2, r.1)
        else
          let eff := write_holding_registers address args.values signed (connOk 0) (outs 0)
          (exit_of eff.result, eff.trace)
    else
      match parse_coil_values 0 args.values with
      | .error _ => (1, [])
      | .ok parsed =>
        if args.write_mode = "single" then
          let r := coil_single_loop address connOk outs 0 parsed
          (exit_of r.2, r.1)
        else
          let eff := write_coils address parsed (connOk 0) (outs 0)
          (exit_of eff.result, eff.trace)

/-- Embeds the "NOTE ON ADDRESSES" sentence of `MAIN_DESCRIPTION`
(cli.py line 87). -/
def main_description_address_note : String :=
  "Register addresses are 0-based. If your documentation uses 40001-style notation,"

/-- Embeds the argparse help string of `--address` (cli.py line 219). -/
def address_arg_help : String :=
  "Starting register/coil address (0-based)"

/-- Statement-level shorthand for the mode's value range (the condition
checked at client.py lines 169/173/204/208 and cli.py lines 362/368). -/
def in_range (signed : Bool) (v : ℤ) : Prop :=
  if signed then -32768 ≤ v ∧ v ≤ 32767 else 0 ≤ v ∧ v ≤ 65535

instance (s : Bool) (v : ℤ) : Decidable (in_range s v) := by
  unfold in_range
  split <;> infer_instance

/-- Trace property for one client call: at most one connection is opened, as
many connections are closed as opened, and whenever a connection was opened
the call's last transport action is the close — no exit path leaves the
connection open, and no state survives the call. -/
def scoped_connection (e : Effect α) : Prop :=
  e.trace.count TCall.connectOk ≤ 1 ∧
  e.trace.count TCall.connectOk = e.trace.count TCall.close ∧
  (TCall.connectOk ∈ e.trace → e.trace.getLast? = some TCall.close)

/-- Masking a natural number with `0xFFFF` is reduction mod `2 ^ 16`. -/
theorem nat_land_mask (m : ℕ) : m &&& 65535 = m % 65536 := by
  have h1 : (65535 : ℕ) = 2 ^ 16 - 1 := by norm_num
  have h2 : (65536 : ℕ) = 2 ^ 16 := by norm_num
  rw [h1, h2]
  apply Nat.eq_of_testBit_eq
  intro i
  rw [Nat.testBit_and, Nat.testBit_mod_two_pow, Nat.testBit_two_pow_sub_one, Bool.and_comm]

/-- Bitwise difference from an all-ones mask is complement within the mask:
`ldiff (2^n - 1) m` and `m % 2^n` sum to `2^n - 1`. -/
theorem nat_ldiff_mask (n : ℕ) : ∀ m : ℕ, Nat.ldiff (2 ^ n - 1) m + m % 2 ^ n = 2 ^ n - 1 := by
  induction n with
  | zero =>
    intro m
    simp [Nat.ldiff, Nat.bitwise, Nat.mod_one]
  | succ n ih =>
    intro m
    have e : (2 : ℕ) ^ (n + 1) = 2 ^ n * 2 := by rw [pow_succ]
    have hpos : 0 < 2 ^ n := Nat.pos_pow_of_pos n (by norm_num)
    have hP : ¬(2 ^ (n + 1) - 1 = 0) := by omega
    by_cases hm : m = 0
    · subst hm
      simp [Nat.ldiff, Nat.bitwise, hP]
    · have hd : (2 ^ (n + 1) - 1) / 2 = 2 ^ n - 1 := by omega
      have hm2 : (2 ^ (n + 1) - 1) % 2 = 1 := by omega
      have hmod : m % 2 ^ (n + 1) = m % 2 + 2 * (m / 2 % 2 ^ n) := by
        rw [e, Nat.mul_comm, Nat.mod_mul]
      have ihm := ih (m / 2)
      unfold Nat.ldiff at ihm ⊢
      rw [Nat.bitwise]
      simp only [hP, hm, if_false, hd, hm2]
      rcases Nat.mod_two_eq_zero_or_one m with h2 | h2 <;>
        simp [h2] <;> omega

/-- The Python expression `value & 0xFFFF` computes `value mod 2^16`
(the mathematically nonnegative remainder, as Python's `%` does). -/
theorem to_unsigned_eq_emod (v : ℤ) : to_unsigned v = v % 65536 := by
  cases v with
  | ofNat m =>
    have h : to_unsigned (Int.ofNat m) = Int.ofNat (m &&& 65535) := rfl
    rw [h, nat_land_mask]
    simp only [Int.ofNat_eq_natCast]
    omega
  | negSucc m =>
    have h : to_unsigned (Int.negSucc m) = Int.ofNat (Nat.ldiff 65535 m) := rfl
    have h2 := nat_ldiff_mask 16 m
    norm_num at h2
    rw [h, Int.negSucc_eq]
    simp only [Int.ofNat_eq_natCast]
    omega

/-- Encoding an in-range unsigned value is the identity. -/
theorem to_unsigned_of_unsigned_range {v : ℤ} (h1 : 0 ≤ v) (h2 : v ≤ 65535) :
    to_unsigned v = v := by
  rw [to_unsigned_eq_emod]
  omega

/-- Validation loop of the batch write: when some value is out of range, the
loop stops at the first offending value, reporting its absolute index. -/
theorem build_raw_values_error :
    ∀ (s : Bool) (values : List ℤ) (k : ℕ), (∃ v ∈ values, ¬ in_range s v) →
      ∃ j v, build_raw_values s k values = .error (.valueError (some (k + j)) v) ∧
        values.get? j = some v ∧ ¬ in_range s v := by
  intro s values
  induction values with
  | nil =>
    intro k h
    simp at h
  | cons v rest ih =>
    intro k h
    by_cases hv : in_range s v
    · have hrest : ∃ w ∈ rest, ¬ in_range s w := by
        rcases h with ⟨w, hw, hnw⟩
        rcases List.mem_cons.mp hw with rfl | hmem
        · exact absurd hv hnw
        · exact ⟨w, hmem, hnw⟩
      rcases ih (k + 1) hrest with ⟨j, w, he, hg, hnw⟩
      refine ⟨j + 1, w, ?_, by simpa using hg, hnw⟩
      have hidx : k + 1 + j = k + (j + 1) := by omega
      cases s
      · replace hv : 0 ≤ v ∧ v ≤ 65535 := by simpa [in_range] using hv
        simp [build_raw_values, hv, he, hidx, Except.map]
      · replace hv : -32768 ≤ v ∧ v ≤ 32767 := by simpa [in_range] using hv
        simp [build_raw_values, hv, he, hidx, Except.map]
    · refine ⟨0, v, ?_, by simp, hv⟩
      cases s
      · replace hv : ¬(0 ≤ v ∧ v ≤ 65535) := by simpa [in_range] using hv
        simp [build_raw_values, hv]
      · replace hv : ¬(-32768 ≤ v ∧ v ≤ 32767) := by simpa [in_range] using hv
        simp [build_raw_values, hv]

/-- Validation loop of the batch write, success case: when every value is in
range, the produced raw payload is exactly the values encoded with
`_to_unsigned`, in order. -/
theorem build_raw_values_ok :
    ∀ (s : Bool) (values : List ℤ) (k : ℕ), (∀ v ∈ values, in_range s v) →
      build_raw_values s k values = .ok (values.map to_unsigned) := by
  intro s values
  induction values with
  | nil =>
    intro k _
    cases s <;> simp [build_raw_values]
  | cons v rest ih =>
    intro k h
    have hv := h v (List.mem_cons_self v rest)
    have hrest := fun w hw => h w (List.mem_cons_of_mem v hw)
    cases s
    · replace hv : 0 ≤ v ∧ v ≤ 65535 := by simpa [in_range] using hv
      simp [build_raw_values, hv, ih (k + 1) hrest, Except.map,
        to_unsigned_of_unsigned_range hv.1 hv.2]
    · replace hv : -32768 ≤ v ∧ v ≤ 32767 := by simpa [in_range] using hv
      simp [build_raw_values, hv, ih (k + 1) hrest, Except.map]

/-- CLI pre-validation of holding values accepts a list of in-range values. -/
theorem cli_validate_none :
    ∀ (s : Bool) (values : List ℤ) (k : ℕ), (∀ v ∈ values, in_range s v) →
      cli_validate s k values = none := by
  intro s values
  induction values with
  | nil =>
    intro k _
    cases s <;> simp [cli_validate]
  | cons v rest ih =>
    intro k h
    have hv := h v (List.mem_cons_self v rest)
    have hrest := fun w hw => h w (List.mem_cons_of_mem v hw)
    cases s
    · replace hv : 0 ≤ v ∧ v ≤ 65535 := by simpa [in_range] using hv
      simp [cli_validate, hv, ih (k + 1) hrest]
    · replace hv : -32768 ≤ v ∧ v ≤ 32767 := by simpa [in_range] using hv
      simp [cli_validate, hv, ih (k + 1) hrest]

/-- Successful single-register write: one connect, one `write_register` with
the `_to_unsigned`-encoded value, one close. -/
theorem write_holding_register_ok (a v : ℤ) (s : Bool) (h : in_range s v) :
    write_holding_register a v s true (.ok ()) =
      { trace := [TCall.connectOk, TCall.writeRegister a (to_unsigned v), TCall.close],
        result := .ok () } := by
  cases s
  · replace h : 0 ≤ v ∧ v ≤ 65535 := by simpa [in_range] using h
    simp [write_holding_register, h, with_connection, decode_response,
      to_unsigned_of_unsigned_range h.1 h.2]
  · replace h : -32768 ≤ v ∧ v ≤ 32767 := by simpa [in_range] using h
    simp [write_holding_register, h, with_connection, decode_response]

/-- Successful run of the one-write-per-value loop: starting at call number
`k`, value number `j` of the list produces one single-register write at
`address + k + j` with the `_to_unsigned`-encoded value, each bracketed by
its own connect/close. -/
theorem write_single_loop_ok :
    ∀ (vs : List ℤ) (a : ℤ) (s : Bool) (connOk : ℕ → Bool) (outs : ℕ → Outcome Unit)
      (k : ℕ),
      (∀ v ∈ vs, in_range s v) → (∀ i, connOk i = true) → (∀ i, outs i = .ok ()) →
      write_single_loop a s connOk outs k vs =
        ((vs.enumFrom k).flatMap fun p =>
          [TCall.connectOk, TCall.writeRegister (a + (p.1 : ℤ)) (to_unsigned p.2),
           TCall.close],
         .ok ()) := by
  intro vs
  induction vs with
  | nil =>
    intro a s connOk outs k _ _ _
    simp [write_single_loop]
  | cons v rest ih =>
    intro a s connOk outs k h hconn houts
    have hv := h v (List.mem_cons_self v rest)
    have hrest := fun w hw => h w (List.mem_cons_of_mem v hw)
    have heff := write_holding_register_ok (a + (k : ℤ)) v s hv
    rw [write_single_loop, hconn k, houts k, heff,
      ih a s connOk outs (k + 1) hrest hconn houts]
    simp

/-- Validation failures perform no transport action at all, so they trivially
leave no connection open. -/
theorem scoped_connection_empty (r : Except ClientError α) :
    scoped_connection (Effect.mk [] r) := by
  simp [scoped_connection]

/-- The shared `_connect`/`try`/`finally` shape closes the connection it
opened on every exit path, whatever the body did in between. -/
theorem scoped_connection_with (c : Bool) (calls : List TCall)
    (r : Except ClientError α)
    (h1 : TCall.connectOk ∉ calls) (h2 : TCall.close ∉ calls) :
    scoped_connection (with_connection c (calls, r)) := by
  cases c
  · simp [with_connection, scoped_connection]
  · unfold with_connection scoped_connection
    refine ⟨?_, ?_, ?_⟩
    · simp [List.count_cons, List.count_append,
        List.count_eq_zero_of_not_mem h1]
    · simp [List.count_cons, List.count_append,
        List.count_eq_zero_of_not_mem h1, List.count_eq_zero_of_not_mem h2]
    · intro _
      have e : TCall.connectOk :: calls ++ [TCall.close] =
          (TCall.connectOk :: calls) ++ [TCall.close] := by simp
      simp only [e]
      exact List.getLast?_concat _

/-! ### Claims -/

/-- C1: the signed and unsigned 16-bit encodings are mutually inverse: for
every integer `x` with `-32768 ≤ x ≤ 32767`, `_to_signed(_to_unsigned(x)) = x`,
and for every `raw` with `0 ≤ raw ≤ 65535`, `_to_unsigned(_to_signed(raw)) = raw`. -/
theorem C1_encodings_mutually_inverse :
    (∀ x : ℤ, -32768 ≤ x → x ≤ 32767 → to_signed (to_unsigned x) = x) ∧
    (∀ raw : ℤ, 0 ≤ raw → raw ≤ 65535 → to_unsigned (to_signed raw) = raw) := by
  constructor
  · intro x h1 h2
    rw [to_unsigned_eq_emod, to_signed]
    split <;> omega
  · intro raw h1 h2
    rw [to_unsigned_eq_emod, to_signed]
    split <;> omega

/-- Witness for C1 at the extreme points `x = -32768` and `raw = 65535`. -/
theorem C1_witness :
    to_signed (to_unsigned (-32768)) = -32768 ∧ to_unsigned (to_signed 65535) = 65535 :=
  ⟨C1_encodings_mutually_inverse.1 (-32768) (by decide) (by decide),
   C1_encodings_mutually_inverse.2 65535 (by decide) (by decide)⟩

/-- C2: the encoding functions equal the spec's reference definitions and are
total (they are Lean functions, hence total by construction): on `0..65535`,
`_to_signed` agrees with the spec's `toSigned` and lands in the `int16` range;
on every integer, `_to_unsigned` agrees with the spec's `toUnsigned`
(truncation mod `2^16`) and lands in the `uint16` range. -/
theorem C2_encodings_match_spec :
    (∀ raw : ℤ, 0 ≤ raw → raw ≤ 65535 →
      to_signed raw = spec_toSigned raw ∧
      -32768 ≤ to_signed raw ∧ to_signed raw ≤ 32767) ∧
    (∀ v : ℤ, to_unsigned v = spec_toUnsigned v ∧
      0 ≤ to_unsigned v ∧ to_unsigned v ≤ 65535) := by
  constructor
  · intro raw h1 h2
    refine ⟨rfl, ?_, ?_⟩ <;> unfold to_signed <;> (split <;> omega)
  · intro v
    have h := to_unsigned_eq_emod v
    unfold spec_toUnsigned
    refine ⟨h, ?_, ?_⟩ <;> rw [h] <;> omega

/-- Witness for C2 at `raw = 65535` and `v = -1`. -/
theorem C2_witness :
    to_signed 65535 = spec_toSigned 65535 ∧ to_unsigned (-1) = spec_toUnsigned (-1) :=
  ⟨(C2_encodings_match_spec.1 65535 (by decide) (by decide)).1,
   (C2_encodings_match_spec.2 (-1)).1⟩

/-- C3: range validation on a holding-register write accepts a value exactly
when it lies in the mode's range: the single write raises its range
`ValueError` iff the value is outside `[-32768, 32767]` (signed mode) resp.
`[0, 65535]` (unsigned mode), for every address and transport behaviour; and
the batch validator accepts a list iff every value is in the mode's range. -/
theorem C3_write_register_range_validation :
    (∀ (address value : ℤ) (connectOk : Bool) (out : Outcome Unit),
      ((write_holding_register address value true connectOk out).result =
          .error (.valueError none value) ↔ ¬(-32768 ≤ value ∧ value ≤ 32767)) ∧
      ((write_holding_register address value false connectOk out).result =
          .error (.valueError none value) ↔ ¬(0 ≤ value ∧ value ≤ 65535))) ∧
    (∀ (s : Bool) (values : List ℤ),
      (∃ raws, build_raw_values s 0 values = .ok raws) ↔ ∀ v ∈ values, in_range s v) := by
  constructor
  · intro a v c o
    constructor
    · by_cases h : -32768 ≤ v ∧ v ≤ 32767 <;>
        cases c <;> cases o <;>
        simp [write_holding_register, with_connection, decode_response, h]
    · by_cases h : 0 ≤ v ∧ v ≤ 65535 <;>
        cases c <;> cases o <;>
        simp [write_holding_register, with_connection, decode_response, h]
  · intro s values
    constructor
    · rintro ⟨raws, hok⟩ v hv
      by_contra hbad
      rcases build_raw_values_error s values 0 ⟨v, hv, hbad⟩ with ⟨j, w, he, _, _⟩
      rw [hok] at he
      exact absurd he (by simp)
    · intro h
      exact ⟨values.map to_unsigned, build_raw_values_ok s values 0 h⟩

/-- C4: a multi-value holding-register write containing any out-of-range
value fails with a `ValueError` naming the offending value and its index,
and performs no transport interaction at all (no connect, no write) — even
when the remaining values are valid. -/
theorem C4_batch_write_validates_before_transport :
    ∀ (address : ℤ) (values : List ℤ) (signed connectOk : Bool) (out : Outcome Unit),
      (∃ v ∈ values, ¬ in_range signed v) →
      (write_holding_registers address values signed connectOk out).trace = [] ∧
      ∃ i v, (write_holding_registers address values signed connectOk out).result =
          .error (.valueError (some i) v) ∧
        values.get? i = some v ∧ ¬ in_range signed v := by
  intro a values s c o h
  have hne : ¬(values = []) := by
    rintro rfl
    simp at h
  rcases build_raw_values_error s values 0 h with ⟨j, v, he, hg, hnv⟩
  refine ⟨by simp [write_holding_registers, hne, he], j, v, ?_, hg, hnv⟩
  simp [write_holding_registers, hne, he]

/-- Witness for C4: the batch `[1500, 40000, 300]` in signed mode fails with
the offending value `40000` reported at index 1 and an empty transport trace,
although the neighbouring values are valid. -/
theorem C4_witness :
    (write_holding_registers 100 [1500, 40000, 300] true true (.ok ())).trace = [] ∧
    ∃ i v, (write_holding_registers 100 [1500, 40000, 300] true true (.ok ())).result =
        .error (.valueError (some i) v) ∧
      [(1500 : ℤ), 40000, 300].get? i = some v ∧ ¬ in_range true v :=
  C4_batch_write_validates_before_transport 100 [1500, 40000, 300] true true (.ok ())
    ⟨40000, by decide, by decide⟩

/-- C5: a CLI write whose register type is input or discrete is rejected
with exit code 1 before any transport interaction (empty trace), regardless
of address, values and transport behaviour. -/
theorem C5_write_readonly_rejected :
    ∀ (args : WriteArgs) (connOk : ℕ → Bool) (outs : ℕ → Outcome Unit),
      (py_lower args.register_type = "input" ∨ py_lower args.register_type = "discrete") →
      handle_write args connOk outs = (1, []) := by
  intro args connOk outs h
  simp [handle_write, h]

/-- Witness for C5: writing to `--register-type input` exits 1 with zero
transport calls. -/
theorem C5_witness :
    handle_write
      { address := 5, values := [1], register_type := "input",
        unsigned := false, write_mode := "multiple" }
      (fun _ => true) (fun _ => .ok ()) = (1, []) :=
  C5_write_readonly_rejected _ _ _ (Or.inl (by decide))

/-- C6: a CLI holding write in multiple-registers mode (`writeAll` true) with
a non-empty list of in-range values issues exactly one multi-register
transport write, at the base (wire) address, whose payload is the values
encoded with `_to_unsigned` in order. -/
theorem C6_multiple_mode_one_batched_write :
    ∀ (args : WriteArgs) (connOk : ℕ → Bool) (outs : ℕ → Outcome Unit),
      py_lower args.register_type = "holding" →
      args.write_mode = "multiple" →
      args.values ≠ [] →
      (∀ v ∈ args.values, in_range (!args.unsigned) v) →
      connOk 0 = true →
      (handle_write args connOk outs).2 =
        [TCall.connectOk,
         TCall.writeRegistersCall (args.address - 1) (args.values.map to_unsigned),
         TCall.close] := by
  intro args connOk outs hreg hmode hne hin hconn
  have hval := cli_validate_none (!args.unsigned) args.values 0 hin
  have hraws := build_raw_values_ok (!args.unsigned) args.values 0 hin
  simp [handle_write, hreg, hmode, hval, hne, hraws, hconn,
    write_holding_registers, with_connection]

/-- Witness for C6: writing `[1500, -200, 300]` at user address 101 in signed
multiple mode produces one batched write of raw `[1500, 65336, 300]` at wire
address 100. -/
theorem C6_witness :
    (handle_write
      { address := 101, values := [1500, -200, 300], register_type := "holding",
        unsigned := false, write_mode := "multiple" }
      (fun _ => true) (fun _ => .ok ())).2 =
      [TCall.connectOk, TCall.writeRegistersCall 100 [1500, 65336, 300], TCall.close] := by
  rw [C6_multiple_mode_one_batched_write _ _ _ (by decide) rfl (by decide) (by decide) rfl]
  simp only [List.map_cons, List.map_nil, to_unsigned_eq_emod]
  decide

/-- C7: a CLI holding write in single-register mode (`writeAll` false) with a
non-empty list of in-range values, when every connect and exchange succeeds,
issues exactly one single-register transport write per value — the `i`-th at
wire address `address + i` with the `_to_unsigned`-encoded value — and never
a batched multi-register call. -/
theorem C7_single_mode_one_write_per_value :
    ∀ (args : WriteArgs) (connOk : ℕ → Bool) (outs : ℕ → Outcome Unit),
      py_lower args.register_type = "holding" →
      args.write_mode = "single" →
      args.values ≠ [] →
      (∀ v ∈ args.values, in_range (!args.unsigned) v) →
      (∀ i, connOk i = true) → (∀ i, outs i = .ok ()) →
      (handle_write args connOk outs).2 =
        (args.values.enum.flatMap fun p =>
          [TCall.connectOk,
           TCall.writeRegister ((args.address - 1) + (p.1 : ℤ)) (to_unsigned p.2),
           TCall.close]) ∧
      ∀ (a : ℤ) (raws : List ℤ),
        TCall.writeRegistersCall a raws ∉ (handle_write args connOk outs).2 := by
  intro args connOk outs hreg hmode hne hin hconn houts
  have hval := cli_validate_none (!args.unsigned) args.values 0 hin
  have htrace : (handle_write args connOk outs).2 =
      (args.values.enum.flatMap fun p =>
        [TCall.connectOk,
         TCall.writeRegister ((args.address - 1) + (p.1 : ℤ)) (to_unsigned p.2),
         TCall.close]) := by
    by_cases hlen : args.values.length = 1
    · rcases List.length_eq_one.mp hlen with ⟨v, hv⟩
      have hv' : in_range (!args.unsigned) v := by
        refine hin v ?_
        rw [hv]
        exact List.mem_cons_self v []
      have hval' : cli_validate (!args.unsigned) 0 [v] = none := hv ▸ hval
      simp [handle_write, hreg, hmode, hval', hlen, hv, List.enum,
        write_holding_register_ok _ v _ hv', hconn 0, houts 0]
    · have hloop := write_single_loop_ok args.values (args.address - 1) (!args.unsigned)
        connOk outs 0 hin hconn houts
      simp [handle_write, hreg, hmode, hval, hlen, hloop, List.enum]
  refine ⟨htrace, ?_⟩
  intro a raws hmem
  rw [htrace] at hmem
  rcases List.mem_flatMap.mp hmem with ⟨p, _, hp⟩
  simp at hp

/-- Witness for C7: writing `[1500, -200]` at user address 101 in signed
single mode produces exactly two single-register writes, at wire addresses
100 and 101, with raw values 1500 and 65336. -/
theorem C7_witness :
    (handle_write
      { address := 101, values := [1500, -200], register_type := "holding",
        unsigned := false, write_mode := "single" }
      (fun _ => true) (fun _ => .ok ())).2 =
      [TCall.connectOk, TCall.writeRegister 100 1500, TCall.close,
       TCall.connectOk, TCall.writeRegister 101 65336, TCall.close] := by
  rw [(C7_single_mode_one_write_per_value _ _ _ (by decide) rfl (by decide) (by decide)
    (fun _ => rfl) (fun _ => rfl)).1]
  simp only [List.enum, List.enumFrom, List.flatMap_cons, List.flatMap_nil,
    to_unsigned_eq_emod]
  decide

/-- C8: a successful read of `count` registers decodes each raw 16-bit value
with `_to_signed` iff the mode is signed and returns the raw values unchanged
in unsigned mode (holding and input); a successful coil/discrete read returns
the transport's booleans unchanged, and the signed/unsigned mode has no
effect on coil/discrete reads. -/
theorem C8_read_decoding :
    (∀ (a c : ℤ) (regs : List ℤ),
      (read_holding_registers a c true true (.ok regs)).result = .ok (regs.map to_signed) ∧
      (read_holding_registers a c false true (.ok regs)).result = .ok regs ∧
      (read_input_registers a c true true (.ok regs)).result = .ok (regs.map to_signed) ∧
      (read_input_registers a c false true (.ok regs)).result = .ok regs) ∧
    (∀ (a c : ℤ) (bits : List Bool), bits.length = c.toNat →
      (read_coils a c true (.ok bits)).result = .ok bits ∧
      (read_discrete_inputs a c true (.ok bits)).result = .ok bits) ∧
    (∀ (args : ReadArgs) (connectOk : Bool) (regOut : Outcome (List ℤ))
        (bitOut : Outcome (List Bool)) (u : Bool),
      (py_lower args.register_type = "coil" ∨ py_lower args.register_type = "discrete") →
      handle_read { args with unsigned := u } connectOk regOut bitOut =
        handle_read args connectOk regOut bitOut) := by
  refine ⟨?_, ?_, ?_⟩
  · intro a c regs
    refine ⟨?_, ?_, ?_, ?_⟩ <;>
      simp [read_holding_registers, read_input_registers, with_connection, decode_response]
  · intro a c bits h
    constructor <;>
      simp [read_coils, read_discrete_inputs, with_connection, decode_response, ← h]
  · intro args connectOk regOut bitOut u h
    rcases h with h | h <;> simp [handle_read, h]

/-- Witness for C8: raw `[1, 40000]` decodes to `[1, -25536]` in signed mode;
coils `[true, false]` come back unchanged; flipping `--unsigned` does not
change a coil read. -/
theorem C8_witness :
    (read_holding_registers 0 2 true true (.ok [1, 40000])).result = .ok [1, -25536] ∧
    (read_coils 0 2 true (.ok [true, false])).result = .ok [true, false] ∧
    handle_read { address := 1, count := 1, register_type := "coil", unsigned := true }
        true (.ok []) (.ok [true]) =
      handle_read { address := 1, count := 1, register_type := "coil", unsigned := false }
        true (.ok []) (.ok [true]) := by
  refine ⟨?_, ?_, ?_⟩
  · rw [(C8_read_decoding.1 0 2 [1, 40000]).1]
    norm_num [to_signed]
  · exact (C8_read_decoding.2.1 0 2 [true, false] (by decide)).1
  · exact C8_read_decoding.2.2
      { address := 1, count := 1, register_type := "coil", unsigned := false }
      true (.ok []) (.ok [true]) true (Or.inl (by decide))

/-- C9: every `ModbusClient` read or write operation, under every transport
behaviour (successful exchange, device error response, transport exception),
closes each connection it successfully opened before returning, with the
close as its final transport action; no call opens more than one connection
and no state is carried across calls (each call's trace is a function of its
own arguments and transport behaviour alone). -/
theorem C9_connection_always_closed :
    ∀ (address count value : ℤ) (values : List ℤ) (bvalues : List Bool) (b : Bool)
      (signed connectOk : Bool) (rout : Outcome (List ℤ)) (bout : Outcome (List Bool))
      (wout : Outcome Unit),
      scoped_connection (read_holding_registers address count signed connectOk rout) ∧
      scoped_connection (read_input_registers address count signed connectOk rout) ∧
      scoped_connection (read_coils address count connectOk bout) ∧
      scoped_connection (read_discrete_inputs address count connectOk bout) ∧
      scoped_connection (write_holding_register address value signed connectOk wout) ∧
      scoped_connection (write_holding_registers address values signed connectOk wout) ∧
      scoped_connection (write_coil address b connectOk wout) ∧
      scoped_connection (write_coils address bvalues connectOk wout) := by
  intro address count value values bvalues b signed connectOk rout bout wout
  refine ⟨?_, ?_, ?_, ?_, ?_, ?_, ?_, ?_⟩
  · exact scoped_connection_with _ _ _ (by simp) (by simp)
  · exact scoped_connection_with _ _ _ (by simp) (by simp)
  · exact scoped_connection_with _ _ _ (by simp) (by simp)
  · exact scoped_connection_with _ _ _ (by simp) (by simp)
  · unfold write_holding_register
    split
    · exact scoped_connection_empty _
    · exact scoped_connection_with _ _ _ (by simp) (by simp)
  · unfold write_holding_registers
    split
    · exact scoped_connection_empty _
    · split
      · exact scoped_connection_empty _
      · exact scoped_connection_with _ _ _ (by simp) (by simp)
  · exact scoped_connection_with _ _ _ (by simp) (by simp)
  · unfold write_coils
    split
    · exact scoped_connection_empty _
    · exact scoped_connection_with _ _ _ (by simp) (by simp)

/-- C10: the CLI hands the client core (and hence the transport) the
user-supplied `--address` minus one — for reads and for writes — although
both the main help text and the `--address` help state that addresses are
0-based; with `--address 0` the wire address is `-1`. -/
theorem C10_cli_address_off_by_one :
    (List.IsInfix "0-based".data main_description_address_note.data ∧
     List.IsInfix "0-based".data address_arg_help.data) ∧
    (∀ (args : ReadArgs) (connectOk : Bool) (regOut : Outcome (List ℤ))
        (bitOut : Outcome (List Bool)),
      py_lower args.register_type = "holding" →
      (handle_read args connectOk regOut bitOut).2 =
        (read_holding_registers (args.address - 1) args.count (!args.unsigned)
          connectOk regOut).trace) ∧
    (∀ (args : WriteArgs) (connOk : ℕ → Bool) (outs : ℕ → Outcome Unit),
      py_lower args.register_type = "holding" →
      args.write_mode = "multiple" →
      cli_validate (!args.unsigned) 0 args.values = none →
      (handle_write args connOk outs).2 =
        (write_holding_registers (args.address - 1) args.values (!args.unsigned)
          (connOk 0) (outs 0)).trace) := by
  refine ⟨⟨by decide, by decide⟩, ?_, ?_⟩
  · intro args connectOk regOut bitOut h
    simp [handle_read, h]
  · intro args connOk outs h hmode hval
    simp [handle_write, h, hmode, hval]

/-- Witness for C10: a CLI read of `--address 0` sends wire address `-1` to
the transport. -/
theorem C10_witness :
    (handle_read { address := 0, count := 1, register_type := "holding", unsigned := false }
      true (.ok [5]) (.ok [])).2 =
      [TCall.connectOk, TCall.readHolding (-1) 1, TCall.close] := by
  rw [C10_cli_address_off_by_one.2.1
    { address := 0, count := 1, register_type := "holding", unsigned := false }
    true (.ok [5]) (.ok []) (by decide)]
  decide

end Modbus
